import Mathlib

/-!
Shallow embedding of the zyn-backend order, coupon and design-vote logic
(`app/crud.py`, `app/models.py`, `app/schemas.py`).

Conventions of the embedding:
* Python `float` prices are modelled as `Rat`; Python `int` as `Int`.
* The SQL session is modelled as explicit record-of-lists state; `first()`
  row lookup is `List.find?`; in-place row mutation is update-first-match.
* `datetime` values are modelled as integers (`now` is a parameter).
* Python exceptions become `Except`/explicit error sums; a CRUD function
  that can raise returns the (possibly updated) state together with the
  outcome, so that all-or-nothing behaviour is a provable property.
-/

namespace Zyn

/-- Decidable equality of `Except` results, so concrete runs of the
embedded operations can be checked by `decide`. -/
instance exceptDecEq {e a : Type} [DecidableEq e] [DecidableEq a] :
    DecidableEq (Except e a) := fun x y =>
  match x, y with
  | .ok v, .ok w => if h : v = w then isTrue (by rw [h]) else isFalse (by simp [h])
  | .error v, .error w => if h : v = w then isTrue (by rw [h]) else isFalse (by simp [h])
  | .ok _, .error _ => isFalse (by simp)
  | .error _, .ok _ => isFalse (by simp)

/-- `models.Product` (pricing/stock fields used by order creation). -/
structure Product where
  id : Int
  name : String
  original_price : Rat
  discount_price : Option Rat
  stock_quantity : Int
  is_active : Bool
deriving DecidableEq, Repr

/-- `models.Order` (fields populated by `create_order`/`create_guest_order`). -/
structure Order where
  id : Int
  user_id : Option Int
  total_amount : Rat
  shipping_address : String
  contact_name : String
  contact_email : String
  contact_phone : Option String
  payment_method : String
  special_instructions : Option String
deriving DecidableEq, Repr

/-- `models.OrderItem` (surrogate key omitted). -/
structure OrderItem where
  order_id : Int
  product_id : Int
  quantity : Int
  unit_price : Rat
  total_price : Rat
deriving DecidableEq, Repr

/-- `schemas.OrderItemBase`: one cart line. -/
structure OrderItemBase where
  product_id : Int
  quantity : Int
deriving DecidableEq, Repr

/-- `schemas.OrderCreate`. -/
structure OrderCreate where
  items : List OrderItemBase
  shipping_address : String
  contact_name : String
  contact_email : String
  contact_phone : Option String
  payment_method : String
  special_instructions : Option String
deriving DecidableEq, Repr

/-- `schemas.GuestOrderCreate`. -/
structure GuestOrderCreate where
  product_ids : String
  quantities : String
  shipping_address : String
  contact_name : String
  contact_email : String
  contact_phone : Option String
  payment_method : String
  special_instructions : Option String
deriving DecidableEq, Repr

/-- The order-related tables of the relational store, plus the
autoincrement counter that assigns the next order primary key. -/
structure DB where
  products : List Product
  orders : List Order
  orderItems : List OrderItem
  nextOrderId : Int
deriving DecidableEq, Repr

/-- The `ValueError`s raised by `create_order` / `create_guest_order`:
product not found, insufficient stock (message carries the product name),
or malformed guest cart encoding. -/
inductive OrderError where
  | notFound (product_id : Int)
  | insufficientStock (name : String)
  | invalidFormat
deriving DecidableEq, Repr

/-- `crud.get_product_by_id`: `select(Product).where(Product.id == product_id)`,
`first()`. -/
def get_product_by_id (db : DB) (product_id : Int) : Option Product :=
  db.products.find? (fun p => p.id = product_id)

/-- The unit price chosen by order creation:
`product.discount_price if product.discount_price else product.original_price`.
Python truthiness makes both `None` and `0.0` fall back to `original_price`. -/
def unitPriceOf (p : Product) : Rat :=
  match p.discount_price with
  | some d => if d = 0 then p.original_price else d
  | none => p.original_price

/-- The `order_items` dict built by the validation loop of
`create_order` / `create_guest_order`. -/
structure ItemData where
  product_id : Int
  quantity : Int
  unit_price : Rat
  total_price : Rat
deriving DecidableEq, Repr

/-- The first loop of `create_order`/`create_guest_order` (crud.py:266-284,
338-356): for each cart line look the product up, fail with NotFound if
absent, fail with InsufficientStock if `stock_quantity < quantity`, pick
the unit price, accumulate the line data and the running total. The loop
performs no writes. -/
def computeItems (db : DB) : List OrderItemBase → Except OrderError (List ItemData × Rat)
  | [] => .ok ([], 0)
  | item :: rest =>
    match get_product_by_id db item.product_id with
    | none => .error (.notFound item.product_id)
    | some p =>
      if p.stock_quantity < item.quantity then
        .error (.insufficientStock p.name)
      else
        let up := unitPriceOf p
        let tot := up * (item.quantity : Rat)
        match computeItems db rest with
        | .error e => .error e
        | .ok (datas, rest_total) =>
          .ok (⟨item.product_id, item.quantity, up, tot⟩ :: datas, tot + rest_total)

/-- In-place `product.stock_quantity -= quantity` on the row returned by
`get_product_by_id`, i.e. on the first row with the given id. -/
def decStockFirst : List Product → Int → Int → List Product
  | [], _, _ => []
  | p :: rest, pid, qty =>
    if p.id = pid then { p with stock_quantity := p.stock_quantity - qty } :: rest
    else p :: decStockFirst rest pid qty

/-- The second loop of `create_order`/`create_guest_order` (crud.py:302-313,
374-385): for each computed line append an `OrderItem` row and decrement
the product's stock. -/
def persistItems (db : DB) (oid : Int) : List ItemData → DB
  | [] => db
  | it :: rest =>
    persistItems
      { db with
        orderItems :=
          db.orderItems ++ [⟨oid, it.product_id, it.quantity, it.unit_price, it.total_price⟩],
        products := decStockFirst db.products it.product_id it.quantity }
      oid rest

/-- Shared tail of both creation paths: insert the `Order` row (receiving
the next primary key) then run the item-persistence loop. -/
def finalizeOrder (db : DB) (user_id : Option Int) (total : Rat)
    (shipping_address contact_name contact_email : String)
    (contact_phone : Option String) (payment_method : String)
    (special_instructions : Option String) (datas : List ItemData) : DB × Order :=
  let o : Order :=
    ⟨db.nextOrderId, user_id, total, shipping_address, contact_name, contact_email,
      contact_phone, payment_method, special_instructions⟩
  let db1 : DB :=
    { db with orders := db.orders ++ [o], nextOrderId := db.nextOrderId + 1 }
  (persistItems db1 o.id datas, o)

/-- `crud.create_order` (crud.py:261-314). -/
def create_order (db : DB) (order : OrderCreate) (user_id : Int) :
    DB × Except OrderError Order :=
  match computeItems db order.items with
  | .error e => (db, .error e)
  | .ok (datas, total) =>
    let (db', o) :=
      finalizeOrder db (some user_id) total order.shipping_address order.contact_name
        order.contact_email order.contact_phone order.payment_method
        order.special_instructions datas
    (db', .ok o)

/-- Python `str.strip` whitespace characters (ASCII subset). -/
def isPyWs (c : Char) : Bool :=
  c = ' ' || c = '\t' || c = '\n' || c = '\x0d' || c = '\x0b' || c = '\x0c'

/-- Python `str.strip()`. -/
def pyStrip (s : String) : String :=
  String.mk (((s.data.dropWhile isPyWs).reverse.dropWhile isPyWs).reverse)

/-- Digit tail of a Python integer literal: decimal digits with single
underscores allowed only between digits. -/
def pyDigitsCore : Nat → List Char → Option Nat
  | acc, [] => some acc
  | acc, c :: rest =>
    if c.isDigit then pyDigitsCore (acc * 10 + (c.toNat - 48)) rest
    else if c = '_' then
      match rest with
      | [] => none
      | d :: rest2 =>
        if d.isDigit then pyDigitsCore (acc * 10 + (d.toNat - 48)) rest2 else none
    else none

/-- Nonempty digit sequence starting a Python integer literal. -/
def pyDigitsStart : List Char → Option Nat
  | [] => none
  | c :: rest => if c.isDigit then pyDigitsCore (c.toNat - 48) rest else none

/-- Python `int(s)` on an already-stripped token: optional sign followed by
digits (with underscores between digits); `none` models `ValueError`. -/
def pythonInt (s : String) : Option Int :=
  match s.data with
  | '+' :: rest => (pyDigitsStart rest).map (fun n => (n : Int))
  | '-' :: rest => (pyDigitsStart rest).map (fun n => -(n : Int))
  | cs => (pyDigitsStart cs).map (fun n => (n : Int))

/-- Python `s.split(',')` at character level: split on every comma, never
collapsing, so `""` gives `[""]` and `"1,"` gives `["1", ""]`. -/
def splitCommaChars : List Char → List (List Char)
  | [] => [[]]
  | c :: rest =>
    if c = ',' then [] :: splitCommaChars rest
    else
      match splitCommaChars rest with
      | [] => [[c]]
      | t :: ts => (c :: t) :: ts

/-- Python `s.split(',')`. -/
def pySplitComma (s : String) : List String :=
  (splitCommaChars s.data).map String.mk

/-- `[int(tok.strip()) for tok in s.split(',')]`; `none` models the
comprehension raising `ValueError` on any token. -/
def parseIntList (s : String) : Option (List Int) :=
  (pySplitComma s).mapM (fun t => pythonInt (pyStrip t))

/-- The `try` block of `create_guest_order` (crud.py:319-332): parse both
comma-separated strings, check equal lengths, and pair the lists
positionally; every failure is re-raised as the uniform format error. -/
def parseGuestItems (product_ids quantities : String) :
    Except OrderError (List OrderItemBase) :=
  match parseIntList product_ids with
  | none => .error .invalidFormat
  | some pids =>
    match parseIntList quantities with
    | none => .error .invalidFormat
    | some qtys =>
      if pids.length ≠ qtys.length then .error .invalidFormat
      else .ok (List.zipWith (fun p q => OrderItemBase.mk p q) pids qtys)

/-- `crud.create_guest_order` (crud.py:317-386): parse, then the same
validation and persistence loops as `create_order`, with `user_id = None`. -/
def create_guest_order (db : DB) (order : GuestOrderCreate) :
    DB × Except OrderError Order :=
  match parseGuestItems order.product_ids order.quantities with
  | .error e => (db, .error e)
  | .ok items =>
    match computeItems db items with
    | .error e => (db, .error e)
    | .ok (datas, total) =>
      let (db', o) :=
        finalizeOrder db none total order.shipping_address order.contact_name
          order.contact_email order.contact_phone order.payment_method
          order.special_instructions datas
      (db', .ok o)

/-- `crud.update_product`'s update dict: `None` fields are skipped. -/
structure ProductUpdate where
  name : Option String := none
  original_price : Option Rat := none
  discount_price : Option Rat := none
  stock_quantity : Option Int := none
  is_active : Option Bool := none
deriving DecidableEq, Repr

/-- `setattr` loop of `crud.update_product`: only non-`None` values applied. -/
def applyProductUpdate (p : Product) (u : ProductUpdate) : Product :=
  { p with
    name := u.name.getD p.name
    original_price := u.original_price.getD p.original_price
    discount_price := match u.discount_price with | some d => some d | none => p.discount_price
    stock_quantity := u.stock_quantity.getD p.stock_quantity
    is_active := u.is_active.getD p.is_active }

/-- Apply a product update to the first row with the given id. -/
def updateProductFirst : List Product → Int → ProductUpdate → List Product
  | [], _, _ => []
  | p :: rest, pid, u =>
    if p.id = pid then applyProductUpdate p u :: rest
    else p :: updateProductFirst rest pid u

/-- `crud.update_product` (crud.py:131-139): mutates only the product row;
order and order-item tables are untouched. -/
def update_product (db : DB) (product_id : Int) (u : ProductUpdate) : DB :=
  { db with products := updateProductFirst db.products product_id u }

/-! ### Design votes (crud.py:516-593, models.Design / models.DesignVote) -/

/-- `models.Design` (fields used by the vote tally). -/
structure Design where
  id : Int
  user_id : Int
  total_votes : Int
deriving DecidableEq, Repr

/-- `models.DesignVote` (surrogate key omitted; `vote_type` is
`"upvote"` or `"downvote"`). -/
structure DesignVote where
  design_id : Int
  user_id : Int
  vote_type : String
deriving DecidableEq, Repr

/-- The design/vote tables. -/
structure VoteDB where
  designs : List Design
  votes : List DesignVote
deriving DecidableEq, Repr

/-- Lookup of an existing vote by the `(design_id, user_id)` pair, `first()`. -/
def findVote (votes : List DesignVote) (design_id user_id : Int) : Option DesignVote :=
  votes.find? (fun v => v.design_id = design_id && v.user_id = user_id)

/-- In-place `existing_vote.vote_type = vote_type` on the first row matching
the `(design_id, user_id)` pair. -/
def overwriteVoteFirst : List DesignVote → Int → Int → String → List DesignVote
  | [], _, _, _ => []
  | v :: rest, did, uid, vt =>
    if v.design_id = did && v.user_id = uid then { v with vote_type := vt } :: rest
    else v :: overwriteVoteFirst rest did uid vt

/-- `db.delete(db_vote)` on the first row matching the pair. -/
def removeVoteFirst : List DesignVote → Int → Int → List DesignVote
  | [], _, _ => []
  | v :: rest, did, uid =>
    if v.design_id = did && v.user_id = uid then rest
    else v :: removeVoteFirst rest did uid

/-- Set `total_votes` on the first design row with the given id. -/
def setTotalVotesFirst : List Design → Int → Int → List Design
  | [], _, _ => []
  | d :: rest, did, tv =>
    if d.id = did then { d with total_votes := tv } :: rest
    else d :: setTotalVotesFirst rest did tv

/-- Signed tally over all votes of a design:
(count of `"upvote"` rows) − (count of `"downvote"` rows). -/
def voteTally (votes : List DesignVote) (design_id : Int) : Int :=
  ((votes.filter (fun v => v.design_id = design_id && v.vote_type = "upvote")).length : Int)
    - ((votes.filter (fun v => v.design_id = design_id && v.vote_type = "downvote")).length : Int)

/-- `crud.update_design_vote_count` (crud.py:571-588): recompute
`total_votes` from scratch as upvotes − downvotes; no-op if the design
row is absent. -/
def update_design_vote_count (db : VoteDB) (design_id : Int) : VoteDB :=
  match db.designs.find? (fun d => d.id = design_id) with
  | none => db
  | some _ =>
    { db with designs := setTotalVotesFirst db.designs design_id (voteTally db.votes design_id) }

/-- `crud.create_vote` (crud.py:516-544): if the user already voted on the
design, overwrite the vote type in place and return — this early-return
path does NOT call `update_design_vote_count`; otherwise insert a new vote
row and recompute the design's tally. -/
def create_vote (db : VoteDB) (design_id user_id : Int) (vote_type : String) :
    VoteDB × DesignVote :=
  match findVote db.votes design_id user_id with
  | some v =>
    ({ db with votes := overwriteVoteFirst db.votes design_id user_id vote_type },
      { v with vote_type := vote_type })
  | none =>
    let nv : DesignVote := ⟨design_id, user_id, vote_type⟩
    let db1 : VoteDB := { db with votes := db.votes ++ [nv] }
    (update_design_vote_count db1 design_id, nv)

/-- `crud.delete_vote` (crud.py:555-568): delete the row if present and
recompute the tally; returns whether a row was deleted. -/
def delete_vote (db : VoteDB) (design_id user_id : Int) : VoteDB × Bool :=
  match findVote db.votes design_id user_id with
  | some _ =>
    let db1 : VoteDB := { db with votes := removeVoteFirst db.votes design_id user_id }
    (update_design_vote_count db1 design_id, true)
  | none => (db, false)

/-! ### Coupons (crud.py:683-786, models.CouponCode / models.CouponUsage) -/

/-- `models.CouponCode`. `expires_at` timestamps are modelled as integers. -/
structure CouponCode where
  id : Int
  code : String
  user_id : Int
  discount_percentage : Int
  max_uses : Int
  used_count : Int
  is_active : Bool
  expires_at : Option Int
deriving DecidableEq, Repr

/-- `models.CouponUsage` (surrogate key and timestamp omitted). -/
structure CouponUsage where
  coupon_id : Int
  order_id : Int
  discount_amount : Rat
deriving DecidableEq, Repr

/-- The coupon tables. -/
structure CouponDB where
  coupons : List CouponCode
  usages : List CouponUsage
deriving DecidableEq, Repr

/-- `crud.create_coupon_code` (crud.py:683-703): inserts a fresh coupon
with `used_count = 0` and `is_active = True`. The random `LOYALTY…` code
generation and its uniqueness-retry loop are abstracted into the `code`
parameter (the loop only determines which string is used). -/
def create_coupon_code (db : CouponDB) (id : Int) (code : String) (user_id : Int)
    (discount_percentage max_uses : Int) (expires_at : Option Int) : CouponDB :=
  { db with coupons := db.coupons ++ [⟨id, code, user_id, discount_percentage, max_uses, 0, true, expires_at⟩] }

/-- `crud.get_coupon_by_code` (crud.py:706-708). -/
def get_coupon_by_code (db : CouponDB) (code : String) : Option CouponCode :=
  db.coupons.find? (fun c => c.code = code)

/-- `crud.validate_coupon` (crud.py:731-753): the sequential checks —
code exists; `user_id` matches; `is_active`; not expired
(`expires_at and expires_at < utcnow()` invalidates); `used_count < max_uses`.
Every failure returns the same `None`. -/
def validate_coupon (db : CouponDB) (code : String) (user_id : Int) (now : Int) :
    Option CouponCode :=
  match get_coupon_by_code db code with
  | none => none
  | some c =>
    if c.user_id ≠ user_id then none
    else if ¬ c.is_active then none
    else if (match c.expires_at with | some t => decide (t < now) | none => false) then none
    else if c.used_count ≥ c.max_uses then none
    else some c

/-- The mutation `use_coupon` applies to the found coupon row:
`used_count += 1`, then `is_active = False` if `used_count >= max_uses`. -/
def redeemUpdate (c : CouponCode) : CouponCode :=
  let c1 := { c with used_count := c.used_count + 1 }
  if c1.used_count ≥ c1.max_uses then { c1 with is_active := false } else c1

/-- Apply `redeemUpdate` to the first coupon row with the given id
(no-op when absent, matching the `if coupon:` guard). -/
def redeemFirst : List CouponCode → Int → List CouponCode
  | [], _ => []
  | c :: rest, cid =>
    if c.id = cid then redeemUpdate c :: rest
    else c :: redeemFirst rest cid

/-- `crud.use_coupon` (crud.py:756-776): unconditionally append a
`CouponUsage` row, then increment the coupon's `used_count` and
deactivate it once `used_count >= max_uses`. -/
def use_coupon (db : CouponDB) (coupon_id order_id : Int) (discount_amount : Rat) :
    CouponDB × CouponUsage :=
  let u : CouponUsage := ⟨coupon_id, order_id, discount_amount⟩
  ({ coupons := redeemFirst db.coupons coupon_id, usages := db.usages ++ [u] }, u)

/-- Set `is_active = False` on the first coupon row with the given id. -/
def deactivateFirst : List CouponCode → Int → List CouponCode
  | [], _ => []
  | c :: rest, cid =>
    if c.id = cid then { c with is_active := false } :: rest
    else c :: deactivateFirst rest cid

/-- `crud.deactivate_coupon` (crud.py:779-786). -/
def deactivate_coupon (db : CouponDB) (coupon_id : Int) : CouponDB :=
  { db with coupons := deactivateFirst db.coupons coupon_id }

/-- Coupon-ledger states reachable from an empty ledger by the coupon
operations exactly as implemented (`create_coupon_code`, `use_coupon`,
`deactivate_coupon`; `validate_coupon` is read-only). -/
inductive CouponReach : CouponDB → Prop where
  | init : CouponReach ⟨[], []⟩
  | issue (db : CouponDB) (id : Int) (code : String) (user_id dp mu : Int)
      (exp : Option Int) : CouponReach db →
      CouponReach (create_coupon_code db id code user_id dp mu exp)
  | redeem (db : CouponDB) (cid oid : Int) (amt : Rat) : CouponReach db →
      CouponReach (use_coupon db cid oid amt).1
  | deact (db : CouponDB) (cid : Int) : CouponReach db →
      CouponReach (deactivate_coupon db cid)

/-- Coupon-ledger states reachable when every issuance grants at least one
use and every redemption targets a coupon that `validate_coupon` would
still accept (`used_count < max_uses`). -/
inductive CouponReachG : CouponDB → Prop where
  | init : CouponReachG ⟨[], []⟩
  | issue (db : CouponDB) (id : Int) (code : String) (user_id dp mu : Int)
      (exp : Option Int) : 1 ≤ mu → CouponReachG db →
      CouponReachG (create_coupon_code db id code user_id dp mu exp)
  | redeem (db : CouponDB) (cid oid : Int) (amt : Rat) : CouponReachG db →
      (∀ c, db.coupons.find? (fun x => x.id = cid) = some c → c.used_count < c.max_uses) →
      CouponReachG (use_coupon db cid oid amt).1
  | deact (db : CouponDB) (cid : Int) : CouponReachG db →
      CouponReachG (deactivate_coupon db cid)

/-- The per-coupon invariant of the spec's data model: `0 ≤ used_count ≤
max_uses`, and a coupon that has reached its cap is inactive. -/
def couponInv (c : CouponCode) : Prop :=
  0 ≤ c.used_count ∧ c.used_count ≤ c.max_uses ∧
    (c.used_count = c.max_uses → c.is_active = false)

instance (c : CouponCode) : Decidable (couponInv c) := by
  unfold couponInv; infer_instance

/-- Refinement comparison point for coupon validation, following the
spec's words: the coupon is valid iff it exists, belongs to the user, is
active, `expires_at` is unset or lies strictly in the future, and
`used_count < max_uses`. -/
def couponValidSpec (db : CouponDB) (code : String) (user_id : Int) (now : Int) : Bool :=
  match get_coupon_by_code db code with
  | none => false
  | some c =>
    c.user_id = user_id && c.is_active &&
      (match c.expires_at with | some t => now < t | none => true) &&
      c.used_count < c.max_uses

/-! ### Helper lemmas: order creation -/

/-- A cart line is invalid against a database: the product is absent, or
it is present with stock below the requested quantity. -/
def lineInvalid (db : DB) (it : OrderItemBase) : Prop :=
  ∀ p, get_product_by_id db it.product_id = some p → p.stock_quantity < it.quantity

/-- The error a given cart line raises when it fails validation. -/
def lineRaises (db : DB) (it : OrderItemBase) (e : OrderError) : Prop :=
  (get_product_by_id db it.product_id = none ∧ e = .notFound it.product_id) ∨
  (∃ p, get_product_by_id db it.product_id = some p ∧ p.stock_quantity < it.quantity ∧
    e = .insufficientStock p.name)

/-- The `OrderItem` row persisted for one computed cart line. -/
def itemToRow (oid : Int) (d : ItemData) : OrderItem :=
  ⟨oid, d.product_id, d.quantity, d.unit_price, d.total_price⟩

theorem persistItems_orderItems (datas : List ItemData) : ∀ (db : DB) (oid : Int),
    (persistItems db oid datas).orderItems = db.orderItems ++ datas.map (itemToRow oid) := by
  induction datas with
  | nil => intro db oid; simp [persistItems]
  | cons d rest ih =>
    intro db oid
    simp [persistItems, ih, itemToRow]

theorem persistItems_orders (datas : List ItemData) : ∀ (db : DB) (oid : Int),
    (persistItems db oid datas).orders = db.orders := by
  induction datas with
  | nil => intro db oid; rfl
  | cons d rest ih => intro db oid; simpa [persistItems] using ih _ oid

theorem find_decStock_ne (l : List Product) (pid qty pid' : Int) (h : pid ≠ pid') :
    (decStockFirst l pid qty).find? (fun p => p.id = pid') =
      l.find? (fun p => p.id = pid') := by
  induction l with
  | nil => rfl
  | cons p rest ih =>
    by_cases hp : p.id = pid
    · simp only [decStockFirst, hp, if_pos rfl]
      have h1 : (decide (pid = pid')) = false := by simp [h]
      simp [List.find?, hp, h1]
    · simp only [decStockFirst, if_neg hp]
      by_cases hp' : p.id = pid'
      · simp [List.find?, hp']
      · simp [List.find?, hp', ih]

theorem find_decStock_eq (l : List Product) (pid qty : Int) (p : Product)
    (h : l.find? (fun x => x.id = pid) = some p) :
    (decStockFirst l pid qty).find? (fun x => x.id = pid) =
      some { p with stock_quantity := p.stock_quantity - qty } := by
  induction l with
  | nil => simp [List.find?] at h
  | cons q rest ih =>
    by_cases hq : q.id = pid
    · have : q = p := by simpa [List.find?, hq] using h
      subst this
      simp [decStockFirst, hq, List.find?]
    · have h' : rest.find? (fun x => x.id = pid) = some p := by
        simpa [List.find?, hq] using h
      simp [decStockFirst, hq, List.find?, ih h']

theorem get_persist_ne (datas : List ItemData) : ∀ (db : DB) (oid pid : Int),
    (∀ d ∈ datas, d.product_id ≠ pid) →
    get_product_by_id (persistItems db oid datas) pid = get_product_by_id db pid := by
  induction datas with
  | nil => intro db oid pid _; rfl
  | cons d rest ih =>
    intro db oid pid hne
    have hd : d.product_id ≠ pid := hne d (List.mem_cons_self d rest)
    have hrest : ∀ x ∈ rest, x.product_id ≠ pid := fun x hx => hne x (List.mem_cons_of_mem d hx)
    simp only [persistItems]
    rw [ih _ oid pid hrest]
    simpa [get_product_by_id] using find_decStock_ne db.products d.product_id d.quantity pid hd

theorem get_persist_hit (datas : List ItemData) : ∀ (db : DB) (oid : Int) (d : ItemData)
    (p : Product), (datas.map (fun x => x.product_id)).Nodup → d ∈ datas →
    get_product_by_id db d.product_id = some p →
    get_product_by_id (persistItems db oid datas) d.product_id =
      some { p with stock_quantity := p.stock_quantity - d.quantity } := by
  induction datas with
  | nil => intro db oid d p _ hd; cases hd
  | cons d0 rest ih =>
    intro db oid d p hnd hd hget
    have hnd' := List.nodup_cons.mp hnd
    rcases List.mem_cons.mp hd with rfl | hdrest
    · simp only [persistItems]
      rw [get_persist_ne rest _ oid d.product_id]
      · simpa [get_product_by_id] using
          find_decStock_eq db.products d.product_id d.quantity p hget
      · intro x hx hxeq
        have hmem := List.mem_map_of_mem (fun y => y.product_id) hx
        simp only at hmem
        rw [hxeq] at hmem
        exact hnd'.1 hmem
    · have hne : d0.product_id ≠ d.product_id := by
        intro heq
        have hmem := List.mem_map_of_mem (fun y => y.product_id) hdrest
        simp only at hmem
        rw [← heq] at hmem
        exact hnd'.1 hmem
      simp only [persistItems]
      refine ih _ oid d p hnd'.2 hdrest ?_
      simpa [get_product_by_id, find_decStock_ne db.products d0.product_id d0.quantity
        d.product_id hne] using hget

theorem computeItems_ok_spec (items : List OrderItemBase) :
    ∀ (db : DB) (datas : List ItemData) (total : Rat),
    computeItems db items = .ok (datas, total) →
    total = (datas.map (fun d => d.total_price)).sum ∧
    datas.map (fun d => (d.product_id, d.quantity)) =
      items.map (fun i => (i.product_id, i.quantity)) ∧
    ∀ d ∈ datas, ∃ p, get_product_by_id db d.product_id = some p ∧
      ¬ p.stock_quantity < d.quantity ∧ d.unit_price = unitPriceOf p ∧
      d.total_price = d.unit_price * (d.quantity : Rat) := by
  induction items with
  | nil =>
    intro db datas total h
    simp only [computeItems] at h
    cases h
    simp
  | cons it rest ih =>
    intro db datas total h
    simp only [computeItems] at h
    split at h
    · cases h
    · rename_i p hget
      split at h
      · cases h
      · rename_i hstock
        split at h
        · cases h
        · rename_i datas' total' hrest
          cases h
          obtain ⟨hsum, hmap, hall⟩ := ih db datas' total' hrest
          refine ⟨by simp [hsum], by simp [hmap], ?_⟩
          intro d hd
          rcases List.mem_cons.mp hd with rfl | hd'
          · exact ⟨p, hget, hstock, rfl, rfl⟩
          · exact hall d hd'

theorem computeItems_error_line (items : List OrderItemBase) :
    ∀ (db : DB) (e : OrderError), computeItems db items = .error e →
    ∃ it ∈ items, lineRaises db it e := by
  induction items with
  | nil => intro db e h; simp only [computeItems] at h; cases h
  | cons it rest ih =>
    intro db e h
    simp only [computeItems] at h
    split at h
    · rename_i hget
      cases h
      exact ⟨it, List.mem_cons_self it rest, Or.inl ⟨hget, rfl⟩⟩
    · rename_i p hget
      split at h
      · rename_i hstock
        cases h
        exact ⟨it, List.mem_cons_self it rest, Or.inr ⟨p, hget, hstock, rfl⟩⟩
      · rename_i hstock
        split at h
        · rename_i e' hrest
          cases h
          obtain ⟨it', hmem, hr⟩ := ih db e hrest
          exact ⟨it', List.mem_cons_of_mem it hmem, hr⟩
        · cases h

theorem computeItems_invalid_error (items : List OrderItemBase) :
    ∀ (db : DB), (∃ it ∈ items, lineInvalid db it) →
    ∃ e, computeItems db items = .error e := by
  intro db h
  cases hres : computeItems db items with
  | error e => exact ⟨e, rfl⟩
  | ok pr =>
    exfalso
    obtain ⟨datas, total⟩ := pr
    obtain ⟨_, hmap, hall⟩ := computeItems_ok_spec items db datas total hres
    obtain ⟨it, hmem, hinv⟩ := h
    have hpair : (it.product_id, it.quantity) ∈
        items.map (fun i => (i.product_id, i.quantity)) := by
      simpa using List.mem_map_of_mem (fun i => (i.product_id, i.quantity)) hmem
    rw [← hmap] at hpair
    obtain ⟨d, hd, hdeq⟩ := List.mem_map.mp hpair
    obtain ⟨p, hget, hstock, _, _⟩ := hall d hd
    have h1 : d.product_id = it.product_id := congrArg Prod.fst hdeq
    have h2 : d.quantity = it.quantity := congrArg Prod.snd hdeq
    rw [h1] at hget
    have := hinv p hget
    rw [← h2] at this
    exact hstock this

theorem create_order_ok_shape (db : DB) (ord : OrderCreate) (uid : Int) (db' : DB)
    (o : Order) (h : create_order db ord uid = (db', .ok o)) :
    ∃ datas total, computeItems db ord.items = .ok (datas, total) ∧
      o = ⟨db.nextOrderId, some uid, total, ord.shipping_address, ord.contact_name,
        ord.contact_email, ord.contact_phone, ord.payment_method,
        ord.special_instructions⟩ ∧
      db' = persistItems
        { db with orders := db.orders ++ [o], nextOrderId := db.nextOrderId + 1 }
        db.nextOrderId datas := by
  simp only [create_order] at h
  split at h
  · exact absurd (congrArg Prod.snd h) (by simp)
  · rename_i datas total hcomp
    simp only [finalizeOrder] at h
    have hdb := congrArg Prod.fst h
    have ho := congrArg Prod.snd h
    simp only [Except.ok.injEq] at hdb ho
    subst ho
    exact ⟨datas, total, hcomp, rfl, hdb.symm⟩

theorem create_guest_order_ok_shape (db : DB) (g : GuestOrderCreate) (db' : DB)
    (o : Order) (h : create_guest_order db g = (db', .ok o)) :
    ∃ items datas total, parseGuestItems g.product_ids g.quantities = .ok items ∧
      computeItems db items = .ok (datas, total) ∧
      o = ⟨db.nextOrderId, none, total, g.shipping_address, g.contact_name,
        g.contact_email, g.contact_phone, g.payment_method, g.special_instructions⟩ ∧
      db' = persistItems
        { db with orders := db.orders ++ [o], nextOrderId := db.nextOrderId + 1 }
        db.nextOrderId datas := by
  simp only [create_guest_order] at h
  split at h
  · exact absurd (congrArg Prod.snd h) (by simp)
  · rename_i items hparse
    split at h
    · exact absurd (congrArg Prod.snd h) (by simp)
    · rename_i datas total hcomp
      simp only [finalizeOrder] at h
      have hdb := congrArg Prod.fst h
      have ho := congrArg Prod.snd h
      simp only [Except.ok.injEq] at hdb ho
      subst ho
      exact ⟨items, datas, total, hparse, hcomp, rfl, hdb.symm⟩

theorem filter_new_items (db : DB) (o : Order) (datas : List ItemData)
    (hFresh : ∀ it ∈ db.orderItems, it.order_id ≠ db.nextOrderId) :
    ((persistItems { db with orders := db.orders ++ [o], nextOrderId := db.nextOrderId + 1 }
        db.nextOrderId datas).orderItems.filter (fun r => r.order_id = db.nextOrderId))
      = datas.map (itemToRow db.nextOrderId) := by
  have h1 : db.orderItems.filter (fun r => decide (r.order_id = db.nextOrderId)) = [] := by
    rw [List.filter_eq_nil_iff]
    intro it hit
    simp [hFresh it hit]
  have h2 : (datas.map (itemToRow db.nextOrderId)).filter
      (fun r => decide (r.order_id = db.nextOrderId)) = datas.map (itemToRow db.nextOrderId) := by
    rw [List.filter_eq_self]
    intro r hr
    obtain ⟨d, _, rfl⟩ := List.mem_map.mp hr
    simp [itemToRow]
  simp only [persistItems_orderItems, List.filter_append]
  simp [h1, h2]

theorem created_rows_spec (db : DB) (datas : List ItemData) (o : Order)
    (hFresh : ∀ it ∈ db.orderItems, it.order_id ≠ db.nextOrderId)
    (hoid : o.id = db.nextOrderId) :
    ((persistItems { db with orders := db.orders ++ [o], nextOrderId := db.nextOrderId + 1 }
        db.nextOrderId datas).orderItems.filter (fun r => r.order_id = o.id))
      = datas.map (itemToRow db.nextOrderId) := by
  rw [hoid]
  exact filter_new_items db o datas hFresh

/-! ### Claim theorems -/

/-- C1: for every successful order creation (`create_order` or
`create_guest_order`), the persisted order's `total_amount` equals the sum
of `total_price` over its `OrderItem` rows, and each row's `total_price`
equals its `unit_price` times its `quantity`. -/
theorem c1_order_total_consistency (db : DB) (ord : OrderCreate) (g : GuestOrderCreate)
    (uid : Int) (db' : DB) (o : Order)
    (hFresh : ∀ it ∈ db.orderItems, it.order_id ≠ db.nextOrderId)
    (h : create_order db ord uid = (db', .ok o) ∨ create_guest_order db g = (db', .ok o)) :
    o.total_amount =
      ((db'.orderItems.filter (fun r => r.order_id = o.id)).map (fun r => r.total_price)).sum ∧
    ∀ r ∈ db'.orderItems.filter (fun r => r.order_id = o.id),
      r.total_price = r.unit_price * (r.quantity : Rat) := by
  obtain ⟨items, datas, total, hcomp, hoid, htot, hdb⟩ :
      ∃ items datas total, computeItems db items = .ok (datas, total) ∧
        o.id = db.nextOrderId ∧ o.total_amount = total ∧
        db' = persistItems
          { db with orders := db.orders ++ [o], nextOrderId := db.nextOrderId + 1 }
          db.nextOrderId datas := by
    rcases h with h | h
    · obtain ⟨datas, total, hcomp, ho, hdb⟩ := create_order_ok_shape db ord uid db' o h
      exact ⟨ord.items, datas, total, hcomp, by rw [ho], by rw [ho], hdb⟩
    · obtain ⟨items, datas, total, _, hcomp, ho, hdb⟩ :=
        create_guest_order_ok_shape db g db' o h
      exact ⟨items, datas, total, hcomp, by rw [ho], by rw [ho], hdb⟩
  subst hdb
  have hrows := created_rows_spec db datas o hFresh hoid
  obtain ⟨hsum, _, hall⟩ := computeItems_ok_spec items db datas total hcomp
  constructor
  · rw [hrows, htot, hsum, List.map_map]
    rfl
  · intro r hr
    rw [hrows] at hr
    obtain ⟨d, hd, rfl⟩ := List.mem_map.mp hr
    obtain ⟨p, _, _, _, htp⟩ := hall d hd
    simpa [itemToRow] using htp

/-- Witness for C1: a one-line cart for two units at price 10 yields an
order whose `total_amount` (20) is the sum of its item rows' totals. -/
theorem c1_order_total_consistency_witness :
    (Order.mk 1 (some 7) 20 "a" "n" "e" none "paypal" none).total_amount =
      ((((create_order (DB.mk [Product.mk 1 "zyn" 10 none 5 true] [] [] 1)
            (OrderCreate.mk [OrderItemBase.mk 1 2] "a" "n" "e" none "paypal" none) 7).1).orderItems.filter
          (fun r => r.order_id = (Order.mk 1 (some 7) 20 "a" "n" "e" none "paypal" none).id)).map
        (fun r => r.total_price)).sum :=
  (c1_order_total_consistency
    (DB.mk [Product.mk 1 "zyn" 10 none 5 true] [] [] 1)
    (OrderCreate.mk [OrderItemBase.mk 1 2] "a" "n" "e" none "paypal" none)
    (GuestOrderCreate.mk "" "" "" "" "" none "" none) 7
    (create_order (DB.mk [Product.mk 1 "zyn" 10 none 5 true] [] [] 1)
      (OrderCreate.mk [OrderItemBase.mk 1 2] "a" "n" "e" none "paypal" none) 7).1
    (Order.mk 1 (some 7) 20 "a" "n" "e" none "paypal" none)
    (by simp)
    (Or.inl (by norm_num [create_order, computeItems, get_product_by_id, List.find?,
      unitPriceOf, finalizeOrder, persistItems, decStockFirst, Prod.ext_iff]))).1

/-- C2 counterexample: with product 1 holding 5 units, a cart listing
product 1 twice with quantity 3 each passes both per-line stock checks
(each reads the undecremented stock) and the created order drives the
stock to −1. -/
theorem c2_counterexample :
    (create_order (DB.mk [Product.mk 1 "zyn" 10 none 5 true] [] [] 1)
        (OrderCreate.mk [OrderItemBase.mk 1 3, OrderItemBase.mk 1 3]
          "a" "n" "e" none "paypal" none) 7).2 =
      .ok (Order.mk 1 (some 7) 60 "a" "n" "e" none "paypal" none) ∧
    (get_product_by_id (create_order (DB.mk [Product.mk 1 "zyn" 10 none 5 true] [] [] 1)
        (OrderCreate.mk [OrderItemBase.mk 1 3, OrderItemBase.mk 1 3]
          "a" "n" "e" none "paypal" none) 7).1 1).map (fun p => p.stock_quantity) =
      some (-1) := by
  constructor
  · norm_num [create_order, computeItems, get_product_by_id, List.find?, unitPriceOf,
      finalizeOrder, persistItems, decStockFirst]
  · norm_num [create_order, computeItems, get_product_by_id, List.find?, unitPriceOf,
      finalizeOrder, persistItems, decStockFirst]

theorem stock_update_core (db : DB) (items : List OrderItemBase) (datas : List ItemData)
    (total : Rat) (o : Order)
    (hnd : (items.map (fun i => i.product_id)).Nodup)
    (hcomp : computeItems db items = .ok (datas, total)) :
    (∀ it ∈ items, ∃ p, get_product_by_id db it.product_id = some p ∧
      get_product_by_id
          (persistItems { db with orders := db.orders ++ [o], nextOrderId := db.nextOrderId + 1 }
            db.nextOrderId datas) it.product_id =
        some { p with stock_quantity := p.stock_quantity - it.quantity } ∧
      it.quantity ≤ p.stock_quantity ∧ 0 ≤ p.stock_quantity - it.quantity) ∧
    (∀ pid, (∀ it ∈ items, it.product_id ≠ pid) →
      get_product_by_id
          (persistItems { db with orders := db.orders ++ [o], nextOrderId := db.nextOrderId + 1 }
            db.nextOrderId datas) pid = get_product_by_id db pid) := by
  obtain ⟨_, hmap, hall⟩ := computeItems_ok_spec items db datas total hcomp
  have hmapid : datas.map (fun d => d.product_id) = items.map (fun i => i.product_id) := by
    have := congrArg (List.map Prod.fst) hmap
    simpa [List.map_map, Function.comp] using this
  have hndd : (datas.map (fun d => d.product_id)).Nodup := by rw [hmapid]; exact hnd
  constructor
  · intro it hmem
    have hpair : (it.product_id, it.quantity) ∈
        items.map (fun i => (i.product_id, i.quantity)) := by
      simpa using List.mem_map_of_mem (fun i => (i.product_id, i.quantity)) hmem
    rw [← hmap] at hpair
    obtain ⟨d, hd, hdeq⟩ := List.mem_map.mp hpair
    have h1 : d.product_id = it.product_id := congrArg Prod.fst hdeq
    have h2 : d.quantity = it.quantity := congrArg Prod.snd hdeq
    obtain ⟨p, hget, hstock, _, _⟩ := hall d hd
    refine ⟨p, by rw [← h1]; exact hget, ?_, ?_, ?_⟩
    · rw [← h1, ← h2]
      exact get_persist_hit datas _ db.nextOrderId d p hndd hd hget
    · rw [← h2]; omega
    · rw [← h2]; omega
  · intro pid hne
    refine get_persist_ne datas _ db.nextOrderId pid ?_
    intro d hd
    have : d.product_id ∈ items.map (fun i => i.product_id) := by
      rw [← hmapid]
      exact List.mem_map_of_mem (fun x => x.product_id) hd
    obtain ⟨it, hit, hiteq⟩ := List.mem_map.mp this
    rw [← hiteq]
    exact hne it hit

/-- C2 (amended): for a successful order creation whose cart references
each product in at most one line, every ordered product's stock decreases
by exactly its line quantity and stays ≥ 0 (the per-line check
`stock_quantity < quantity` guarantees it), and unordered products'
stock is unchanged. The original claim fails when the same product
appears in several cart lines (see the counterexample): each line is
validated against the undecremented stock, so the combined decrement can
drive the stock below zero. -/
theorem c2_stock_decrement :
    (∀ (db : DB) (ord : OrderCreate) (uid : Int) (db' : DB) (o : Order),
      (ord.items.map (fun i => i.product_id)).Nodup →
      create_order db ord uid = (db', .ok o) →
      (∀ it ∈ ord.items, ∃ p, get_product_by_id db it.product_id = some p ∧
        get_product_by_id db' it.product_id =
          some { p with stock_quantity := p.stock_quantity - it.quantity } ∧
        it.quantity ≤ p.stock_quantity ∧ 0 ≤ p.stock_quantity - it.quantity) ∧
      (∀ pid, (∀ it ∈ ord.items, it.product_id ≠ pid) →
        get_product_by_id db' pid = get_product_by_id db pid)) ∧
    (∀ (db : DB) (g : GuestOrderCreate) (db' : DB) (o : Order)
      (items : List OrderItemBase),
      parseGuestItems g.product_ids g.quantities = .ok items →
      (items.map (fun i => i.product_id)).Nodup →
      create_guest_order db g = (db', .ok o) →
      (∀ it ∈ items, ∃ p, get_product_by_id db it.product_id = some p ∧
        get_product_by_id db' it.product_id =
          some { p with stock_quantity := p.stock_quantity - it.quantity } ∧
        it.quantity ≤ p.stock_quantity ∧ 0 ≤ p.stock_quantity - it.quantity) ∧
      (∀ pid, (∀ it ∈ items, it.product_id ≠ pid) →
        get_product_by_id db' pid = get_product_by_id db pid)) := by
  constructor
  · intro db ord uid db' o hnd h
    obtain ⟨datas, total, hcomp, ho, hdb⟩ := create_order_ok_shape db ord uid db' o h
    subst hdb
    exact stock_update_core db ord.items datas total o hnd hcomp
  · intro db g db' o items hparse hnd h
    obtain ⟨items', datas, total, hparse', hcomp, ho, hdb⟩ :=
      create_guest_order_ok_shape db g db' o h
    have hitems : items' = items := by
      rw [hparse] at hparse'
      exact (Except.ok.injEq _ _).mp hparse'.symm
    subst hitems
    subst hdb
    exact stock_update_core db items' datas total o hnd hcomp

/-- Witness for C2 (amended), on both paths: a one-line order for two
units (also parsed from the guest strings `"1"` / `"2"`) lowers the
stock of product 1 from 5 to 3, and leaves an unordered product id
untouched. -/
theorem c2_stock_decrement_witness :
    get_product_by_id (create_order (DB.mk [Product.mk 1 "zyn" 10 none 5 true] [] [] 1)
        (OrderCreate.mk [OrderItemBase.mk 1 2] "a" "n" "e" none "paypal" none) 7).1 1 =
      some (Product.mk 1 "zyn" 10 none 3 true) ∧
    get_product_by_id (create_order (DB.mk [Product.mk 1 "zyn" 10 none 5 true] [] [] 1)
        (OrderCreate.mk [OrderItemBase.mk 1 2] "a" "n" "e" none "paypal" none) 7).1 9 =
      get_product_by_id (DB.mk [Product.mk 1 "zyn" 10 none 5 true] [] [] 1) 9 ∧
    get_product_by_id (create_guest_order (DB.mk [Product.mk 1 "zyn" 10 none 5 true] [] [] 1)
        (GuestOrderCreate.mk "1" "2" "a" "n" "e" none "paypal" none)).1 1 =
      some (Product.mk 1 "zyn" 10 none 3 true) := by
  have hord := c2_stock_decrement.1 (DB.mk [Product.mk 1 "zyn" 10 none 5 true] [] [] 1)
    (OrderCreate.mk [OrderItemBase.mk 1 2] "a" "n" "e" none "paypal" none) 7
    (create_order (DB.mk [Product.mk 1 "zyn" 10 none 5 true] [] [] 1)
      (OrderCreate.mk [OrderItemBase.mk 1 2] "a" "n" "e" none "paypal" none) 7).1
    (Order.mk 1 (some 7) 20 "a" "n" "e" none "paypal" none)
    (by simp)
    (by norm_num [create_order, computeItems, get_product_by_id, List.find?, unitPriceOf,
      finalizeOrder, persistItems, decStockFirst, Prod.ext_iff])
  have hpg : parseGuestItems "1" "2" = .ok [OrderItemBase.mk 1 2] := by decide
  have hguest := c2_stock_decrement.2 (DB.mk [Product.mk 1 "zyn" 10 none 5 true] [] [] 1)
    (GuestOrderCreate.mk "1" "2" "a" "n" "e" none "paypal" none)
    (create_guest_order (DB.mk [Product.mk 1 "zyn" 10 none 5 true] [] [] 1)
      (GuestOrderCreate.mk "1" "2" "a" "n" "e" none "paypal" none)).1
    (Order.mk 1 none 20 "a" "n" "e" none "paypal" none)
    [OrderItemBase.mk 1 2] hpg (by simp)
    (by norm_num [create_guest_order, hpg, computeItems, get_product_by_id, List.find?,
      unitPriceOf, finalizeOrder, persistItems, decStockFirst, Prod.ext_iff])
  refine ⟨?_, hord.2 9 (by decide), ?_⟩
  · obtain ⟨p, hp, hdec, -, -⟩ := hord.1 (OrderItemBase.mk 1 2) (by decide)
    have hpe : p = Product.mk 1 "zyn" 10 none 5 true := by
      have h5 := hp.symm.trans (show get_product_by_id
        (DB.mk [Product.mk 1 "zyn" 10 none 5 true] [] [] 1) 1 =
          some (Product.mk 1 "zyn" 10 none 5 true) by decide)
      rw [Option.some.injEq] at h5
      exact h5
    subst hpe
    rw [hdec]
    decide
  · obtain ⟨p, hp, hdec, -, -⟩ := hguest.1 (OrderItemBase.mk 1 2) (by decide)
    have hpe : p = Product.mk 1 "zyn" 10 none 5 true := by
      have h5 := hp.symm.trans (show get_product_by_id
        (DB.mk [Product.mk 1 "zyn" 10 none 5 true] [] [] 1) 1 =
          some (Product.mk 1 "zyn" 10 none 5 true) by decide)
      rw [Option.some.injEq] at h5
      exact h5
    subst hpe
    rw [hdec]
    decide

/-- C3: if any cart line fails validation (absent product, or stock below
the requested quantity), order creation returns the corresponding error
and leaves the database unchanged — no stock decrement, no `Order` or
`OrderItem` row; this holds for `create_order` and, past parsing, for
`create_guest_order` (whose parse failures also leave the state
unchanged). -/
theorem c3_all_or_nothing :
    (∀ (db : DB) (ord : OrderCreate) (uid : Int) (e : OrderError),
      (create_order db ord uid).2 = .error e →
      (create_order db ord uid).1 = db ∧ ∃ it ∈ ord.items, lineRaises db it e) ∧
    (∀ (db : DB) (ord : OrderCreate) (uid : Int),
      (∃ it ∈ ord.items, lineInvalid db it) →
      ∃ e, (create_order db ord uid).2 = .error e) ∧
    (∀ (db : DB) (g : GuestOrderCreate) (e : OrderError),
      (create_guest_order db g).2 = .error e → (create_guest_order db g).1 = db) ∧
    (∀ (db : DB) (g : GuestOrderCreate) (items : List OrderItemBase) (e : OrderError),
      parseGuestItems g.product_ids g.quantities = .ok items →
      (create_guest_order db g).2 = .error e → ∃ it ∈ items, lineRaises db it e) ∧
    (∀ (db : DB) (g : GuestOrderCreate) (items : List OrderItemBase),
      parseGuestItems g.product_ids g.quantities = .ok items →
      (∃ it ∈ items, lineInvalid db it) →
      ∃ e, (create_guest_order db g).2 = .error e) := by
  refine ⟨?_, ?_, ?_, ?_, ?_⟩
  · intro db ord uid e he
    cases hres : computeItems db ord.items with
    | error e0 =>
      have h1 : create_order db ord uid = (db, .error e0) := by
        simp [create_order, hres]
      rw [h1] at he
      simp only [Except.error.injEq] at he
      subst he
      exact ⟨by simp [h1], computeItems_error_line ord.items db e0 hres⟩
    | ok pr =>
      obtain ⟨datas, total⟩ := pr
      have ho : (create_order db ord uid).2 =
          .ok ⟨db.nextOrderId, some uid, total, ord.shipping_address, ord.contact_name,
            ord.contact_email, ord.contact_phone, ord.payment_method,
            ord.special_instructions⟩ := by
        simp [create_order, finalizeOrder, hres]
      rw [ho] at he
      exact absurd he (by simp)
  · intro db ord uid h
    obtain ⟨e, he⟩ := computeItems_invalid_error ord.items db h
    exact ⟨e, by simp [create_order, he]⟩
  · intro db g e he
    cases hp : parseGuestItems g.product_ids g.quantities with
    | error e0 =>
      have h1 : create_guest_order db g = (db, .error e0) := by
        simp [create_guest_order, hp]
      simp [h1]
    | ok items =>
      cases hres : computeItems db items with
      | error e0 =>
        have h1 : create_guest_order db g = (db, .error e0) := by
          simp [create_guest_order, hp, hres]
        simp [h1]
      | ok pr =>
        obtain ⟨datas, total⟩ := pr
        have ho : (create_guest_order db g).2 =
            .ok ⟨db.nextOrderId, none, total, g.shipping_address, g.contact_name,
              g.contact_email, g.contact_phone, g.payment_method,
              g.special_instructions⟩ := by
          simp [create_guest_order, finalizeOrder, hp, hres]
        rw [ho] at he
        exact absurd he (by simp)
  · intro db g items e hp he
    cases hres : computeItems db items with
    | error e0 =>
      have h1 : (create_guest_order db g).2 = .error e0 := by
        simp [create_guest_order, hp, hres]
      rw [h1] at he
      simp only [Except.error.injEq] at he
      subst he
      exact computeItems_error_line items db e0 hres
    | ok pr =>
      obtain ⟨datas, total⟩ := pr
      have ho : (create_guest_order db g).2 =
          .ok ⟨db.nextOrderId, none, total, g.shipping_address, g.contact_name,
            g.contact_email, g.contact_phone, g.payment_method,
            g.special_instructions⟩ := by
        simp [create_guest_order, finalizeOrder, hp, hres]
      rw [ho] at he
      exact absurd he (by simp)
  · intro db g items hp h
    obtain ⟨e, he⟩ := computeItems_invalid_error items db h
    exact ⟨e, by simp [create_guest_order, hp, he]⟩

/-- Witness for C3: ordering a nonexistent product leaves the database
unchanged. -/
theorem c3_all_or_nothing_witness :
    (create_order (DB.mk [] [] [] 1)
        (OrderCreate.mk [OrderItemBase.mk 9 1] "a" "n" "e" none "paypal" none) 7).1 =
      DB.mk [] [] [] 1 :=
  (c3_all_or_nothing.1 (DB.mk [] [] [] 1)
    (OrderCreate.mk [OrderItemBase.mk 9 1] "a" "n" "e" none "paypal" none) 7
    (.notFound 9) (by decide)).1

/-- C4 counterexample: a product with `discount_price = 0` is priced at
`original_price` (100), not at the discount (0): Python's
`if product.discount_price` treats `0.0` as absent. -/
theorem c4_counterexample :
    (create_order (DB.mk [Product.mk 2 "d0" 100 (some 0) 10 true] [] [] 1)
        (OrderCreate.mk [OrderItemBase.mk 2 1] "a" "n" "e" none "paypal" none) 7).1.orderItems
      = [OrderItem.mk 1 2 1 100 100] ∧
    (get_product_by_id (DB.mk [Product.mk 2 "d0" 100 (some 0) 10 true] [] [] 1) 2).map
      (fun p => p.discount_price) = some (some 0) ∧
    (100 : Rat) ≠ 0 := by
  refine ⟨?_, by decide, by norm_num⟩
  norm_num [create_order, computeItems, get_product_by_id, List.find?, unitPriceOf,
    finalizeOrder, persistItems, decStockFirst]

/-- C4 (amended): for every cart line of a successful order creation, the
stored `OrderItem.unit_price` equals the product's `discount_price`
whenever it is present and non-zero, and equals `original_price` when
the discount is absent or equal to 0 (Python truthiness); the stored
`unit_price`/`total_price` snapshot is not touched by any later
`update_product` call. -/
theorem c4_price_snapshot (db : DB) (ord : OrderCreate) (g : GuestOrderCreate)
    (uid : Int) (db' : DB) (o : Order)
    (hFresh : ∀ it ∈ db.orderItems, it.order_id ≠ db.nextOrderId)
    (h : create_order db ord uid = (db', .ok o) ∨ create_guest_order db g = (db', .ok o)) :
    (∀ r ∈ db'.orderItems.filter (fun r => r.order_id = o.id),
      ∃ p, get_product_by_id db r.product_id = some p ∧
        (∀ d, p.discount_price = some d → d ≠ 0 → r.unit_price = d) ∧
        ((p.discount_price = none ∨ p.discount_price = some 0) →
          r.unit_price = p.original_price) ∧
        r.total_price = r.unit_price * (r.quantity : Rat)) ∧
    (∀ (pid : Int) (u : ProductUpdate),
      (update_product db' pid u).orderItems = db'.orderItems) := by
  obtain ⟨items, datas, total, hcomp, hoid, hdb⟩ :
      ∃ items datas total, computeItems db items = .ok (datas, total) ∧
        o.id = db.nextOrderId ∧
        db' = persistItems
          { db with orders := db.orders ++ [o], nextOrderId := db.nextOrderId + 1 }
          db.nextOrderId datas := by
    rcases h with h | h
    · obtain ⟨datas, total, hcomp, ho, hdb⟩ := create_order_ok_shape db ord uid db' o h
      exact ⟨ord.items, datas, total, hcomp, by rw [ho], hdb⟩
    · obtain ⟨items, datas, total, _, hcomp, ho, hdb⟩ :=
        create_guest_order_ok_shape db g db' o h
      exact ⟨items, datas, total, hcomp, by rw [ho], hdb⟩
  subst hdb
  have hrows := created_rows_spec db datas o hFresh hoid
  obtain ⟨_, _, hall⟩ := computeItems_ok_spec items db datas total hcomp
  refine ⟨?_, ?_⟩
  · intro r hr
    rw [hrows] at hr
    obtain ⟨d, hd, rfl⟩ := List.mem_map.mp hr
    obtain ⟨p, hget, _, hup, htp⟩ := hall d hd
    refine ⟨p, hget, ?_, ?_, by simpa [itemToRow] using htp⟩
    · intro d0 hdisc hd0
      simp only [itemToRow]
      rw [hup]
      unfold unitPriceOf
      rw [hdisc]
      simp [hd0]
    · intro hcase
      simp only [itemToRow]
      rw [hup]
      unfold unitPriceOf
      rcases hcase with hnone | hzero
      · rw [hnone]
      · rw [hzero]
        simp
  · intro pid u
    simp [update_product]

/-- Witness for C4 (amended): a later `update_product` that changes the
product's prices does not change the persisted order-item rows. -/
theorem c4_price_snapshot_witness :
    (update_product (create_order (DB.mk [Product.mk 1 "zyn" 10 none 5 true] [] [] 1)
        (OrderCreate.mk [OrderItemBase.mk 1 2] "a" "n" "e" none "paypal" none) 7).1 1
        (ProductUpdate.mk none (some 99) (some 1) none none)).orderItems =
      (create_order (DB.mk [Product.mk 1 "zyn" 10 none 5 true] [] [] 1)
        (OrderCreate.mk [OrderItemBase.mk 1 2] "a" "n" "e" none "paypal" none) 7).1.orderItems :=
  (c4_price_snapshot (DB.mk [Product.mk 1 "zyn" 10 none 5 true] [] [] 1)
    (OrderCreate.mk [OrderItemBase.mk 1 2] "a" "n" "e" none "paypal" none)
    (GuestOrderCreate.mk "" "" "" "" "" none "" none) 7
    (create_order (DB.mk [Product.mk 1 "zyn" 10 none 5 true] [] [] 1)
      (OrderCreate.mk [OrderItemBase.mk 1 2] "a" "n" "e" none "paypal" none) 7).1
    (Order.mk 1 (some 7) 20 "a" "n" "e" none "paypal" none)
    (by simp)
    (Or.inl (by norm_num [create_order, computeItems, get_product_by_id, List.find?,
      unitPriceOf, finalizeOrder, persistItems, decStockFirst, Prod.ext_iff]))).2 1
    (ProductUpdate.mk none (some 99) (some 1) none none)

/-- C10: neither creation path requires `quantity > 0`. For a cart line
on an existing product with `quantity ≤ 0` (and nonnegative stock), the
check `stock_quantity < quantity` passes, the order is created — by
`create_order`, and likewise by `create_guest_order` whenever the two
comma-separated strings parse to that line (e.g. a quantity token such
as `"-2"`) — the line's `total_price` is `unit_price * quantity ≤ 0`
(for a nonnegative unit price) and lowers `total_amount` accordingly,
and the product's stock is increased by the negated quantity instead of
decreased. (`schemas.OrderItemBase` imposes no bound on `quantity`, and
the guest parser accepts signed integer tokens.) -/
theorem c10_nonpositive_quantity (db : DB) (pid q uid : Int) (p : Product)
    (sa cn ce : String) (cph : Option String) (pm : String) (si : Option String)
    (pids qtys : String)
    (hget : get_product_by_id db pid = some p)
    (h0 : 0 ≤ p.stock_quantity) (hq : q ≤ 0) (hup : 0 ≤ unitPriceOf p)
    (hparse : parseGuestItems pids qtys = .ok [OrderItemBase.mk pid q]) :
    ¬ p.stock_quantity < q ∧
    (∃ db' o, create_order db (OrderCreate.mk [OrderItemBase.mk pid q] sa cn ce cph pm si) uid
        = (db', .ok o) ∧
      o.total_amount = unitPriceOf p * (q : Rat) ∧ o.total_amount ≤ 0 ∧
      (OrderItem.mk o.id pid q (unitPriceOf p) (unitPriceOf p * (q : Rat))) ∈ db'.orderItems ∧
      get_product_by_id db' pid = some { p with stock_quantity := p.stock_quantity - q } ∧
      p.stock_quantity ≤ p.stock_quantity - q) ∧
    (∃ db' o, create_guest_order db (GuestOrderCreate.mk pids qtys sa cn ce cph pm si)
        = (db', .ok o) ∧
      o.user_id = none ∧
      o.total_amount = unitPriceOf p * (q : Rat) ∧ o.total_amount ≤ 0 ∧
      (OrderItem.mk o.id pid q (unitPriceOf p) (unitPriceOf p * (q : Rat))) ∈ db'.orderItems ∧
      get_product_by_id db' pid = some { p with stock_quantity := p.stock_quantity - q } ∧
      p.stock_quantity ≤ p.stock_quantity - q) := by
  have hcheck : ¬ p.stock_quantity < q := by omega
  have hcomp : computeItems db [OrderItemBase.mk pid q] =
      .ok ([ItemData.mk pid q (unitPriceOf p) (unitPriceOf p * (q : Rat))],
        unitPriceOf p * (q : Rat) + 0) := by
    simp [computeItems, hget, hcheck]
  have htotle : unitPriceOf p * (q : Rat) ≤ 0 :=
    mul_nonpos_iff.mpr (Or.inl ⟨hup, Int.cast_nonpos.mpr hq⟩)
  refine ⟨hcheck, ?_, ?_⟩
  · refine ⟨persistItems
        { db with
          orders := db.orders ++ [Order.mk db.nextOrderId (some uid)
            (unitPriceOf p * (q : Rat)) sa cn ce cph pm si],
          nextOrderId := db.nextOrderId + 1 }
        db.nextOrderId [ItemData.mk pid q (unitPriceOf p) (unitPriceOf p * (q : Rat))],
      Order.mk db.nextOrderId (some uid) (unitPriceOf p * (q : Rat)) sa cn ce cph pm si,
      ?_, rfl, htotle, ?_, ?_, ?_⟩
    · simp [create_order, finalizeOrder, hcomp]
    · rw [persistItems_orderItems]
      simp [itemToRow]
    · simp only [persistItems]
      show (decStockFirst db.products pid q).find? (fun x => x.id = pid) = _
      exact find_decStock_eq db.products pid q p hget
    · omega
  · refine ⟨persistItems
        { db with
          orders := db.orders ++ [Order.mk db.nextOrderId none
            (unitPriceOf p * (q : Rat)) sa cn ce cph pm si],
          nextOrderId := db.nextOrderId + 1 }
        db.nextOrderId [ItemData.mk pid q (unitPriceOf p) (unitPriceOf p * (q : Rat))],
      Order.mk db.nextOrderId none (unitPriceOf p * (q : Rat)) sa cn ce cph pm si,
      ?_, rfl, rfl, htotle, ?_, ?_, ?_⟩
    · simp [create_guest_order, hparse, finalizeOrder, hcomp]
    · rw [persistItems_orderItems]
      simp [itemToRow]
    · simp only [persistItems]
      show (decStockFirst db.products pid q).find? (fun x => x.id = pid) = _
      exact find_decStock_eq db.products pid q p hget
    · omega

/-- Witness for C10 at quantity −2, on both paths: the stock check
passes, and the guest order parsed from `"1"` / `"-2"` raises the stock
from 5 to 7. -/
theorem c10_nonpositive_quantity_witness :
    ¬ (Product.mk 1 "zyn" 10 none 5 true).stock_quantity < -2 ∧
    get_product_by_id (create_guest_order (DB.mk [Product.mk 1 "zyn" 10 none 5 true] [] [] 1)
        (GuestOrderCreate.mk "1" "-2" "a" "n" "e" none "paypal" none)).1 1 =
      some (Product.mk 1 "zyn" 10 none 7 true) := by
  have h := c10_nonpositive_quantity (DB.mk [Product.mk 1 "zyn" 10 none 5 true] [] [] 1)
    1 (-2) 7 (Product.mk 1 "zyn" 10 none 5 true) "a" "n" "e" none "paypal" none "1" "-2"
    (by decide) (by decide) (by decide) (by norm_num [unitPriceOf]) (by decide)
  refine ⟨h.1, ?_⟩
  obtain ⟨db', o, hco, -, -, -, -, hstock, -⟩ := h.2.2
  have h1 : (create_guest_order (DB.mk [Product.mk 1 "zyn" 10 none 5 true] [] [] 1)
      (GuestOrderCreate.mk "1" "-2" "a" "n" "e" none "paypal" none)).1 = db' := by
    rw [hco]
  rw [h1, hstock]
  decide

/-- C5 (code-bug demonstration): the claim matches the documented intent —
after `castVote` the design's `total_votes` should equal upvotes minus
downvotes — but `create_vote`'s overwrite path returns early without
calling `update_design_vote_count`. Concretely: a design at
`total_votes = 1` with a single upvote by user 7; user 7 switches to a
downvote; the vote row is overwritten in place, yet `total_votes` stays 1
while the tally over the vote rows is −1. -/
theorem c5_vote_overwrite_stale :
    create_vote (VoteDB.mk [Design.mk 1 5 1] [DesignVote.mk 1 7 "upvote"]) 1 7 "downvote" =
      (VoteDB.mk [Design.mk 1 5 1] [DesignVote.mk 1 7 "downvote"],
        DesignVote.mk 1 7 "downvote") ∧
    voteTally [DesignVote.mk 1 7 "downvote"] 1 = -1 ∧
    (1 : Int) ≠ -1 ∧
    delete_vote (VoteDB.mk [Design.mk 1 5 1] [DesignVote.mk 1 7 "upvote"]) 1 7 =
      (VoteDB.mk [Design.mk 1 5 0] [], true) := by
  exact ⟨by decide, by decide, by decide, by decide⟩

/-- C6 counterexample: a coupon whose `expires_at` equals the current
instant is accepted by `validate_coupon` (the code only rejects
`expires_at < now`), while the claim's condition — `expires_at` unset or
strictly in the future — rejects it, so the claimed "if and only if"
fails at `now = expires_at`. -/
theorem c6_counterexample :
    validate_coupon (CouponDB.mk [CouponCode.mk 1 "X" 7 10 1 0 true (some 100)] []) "X" 7 100 =
      some (CouponCode.mk 1 "X" 7 10 1 0 true (some 100)) ∧
    couponValidSpec (CouponDB.mk [CouponCode.mk 1 "X" 7 10 1 0 true (some 100)] []) "X" 7 100 =
      false := by
  exact ⟨by decide, by decide⟩

/-- C6 (amended): `validate_coupon` returns the coupon iff the code
exists, the coupon belongs to the user, it is active, `expires_at` is
unset or not earlier than the current time, and `used_count < max_uses`;
any failing condition yields the same `none`. -/
theorem c6_validate_iff (db : CouponDB) (code : String) (uid now : Int) (c : CouponCode) :
    validate_coupon db code uid now = some c ↔
      (get_coupon_by_code db code = some c ∧ c.user_id = uid ∧ c.is_active = true ∧
        (∀ t, c.expires_at = some t → now ≤ t) ∧ c.used_count < c.max_uses) := by
  unfold validate_coupon
  cases hget : get_coupon_by_code db code with
  | none =>
    constructor
    · intro hx
      exact absurd hx (by simp)
    · rintro ⟨hc, -⟩
      exact absurd hc (by simp)
  | some c0 =>
    show (if c0.user_id ≠ uid then none
      else if ¬ c0.is_active then none
      else if (match c0.expires_at with | some t => decide (t < now) | none => false) then none
      else if c0.used_count ≥ c0.max_uses then none
      else some c0) = some c ↔ _
    by_cases h1 : c0.user_id ≠ uid
    · rw [if_pos h1]
      constructor
      · intro hx; exact absurd hx (by simp)
      · rintro ⟨hc, hu, -⟩
        rw [Option.some.injEq] at hc
        subst hc
        exact absurd hu h1
    · rw [if_neg h1]
      by_cases h2 : ¬ c0.is_active
      · rw [if_pos h2]
        constructor
        · intro hx; exact absurd hx (by simp)
        · rintro ⟨hc, -, hact, -⟩
          rw [Option.some.injEq] at hc
          subst hc
          exact absurd hact h2
      · rw [if_neg h2]
        by_cases h3 :
            (match c0.expires_at with | some t => decide (t < now) | none => false) = true
        · rw [if_pos h3]
          constructor
          · intro hx; exact absurd hx (by simp)
          · rintro ⟨hc, -, -, hexp, -⟩
            rw [Option.some.injEq] at hc
            subst hc
            cases hepr : c0.expires_at with
            | none => rw [hepr] at h3; cases h3
            | some t =>
              rw [hepr] at h3
              have ht : t < now := of_decide_eq_true h3
              exact absurd (hexp t hepr) (by omega)
        · rw [if_neg h3]
          by_cases h4 : c0.used_count ≥ c0.max_uses
          · rw [if_pos h4]
            constructor
            · intro hx; exact absurd hx (by simp)
            · rintro ⟨hc, -, -, -, hlt⟩
              rw [Option.some.injEq] at hc
              subst hc
              exact absurd hlt (by omega)
          · rw [if_neg h4]
            constructor
            · intro hx
              rw [Option.some.injEq] at hx
              subst hx
              refine ⟨rfl, not_not.mp h1, not_not.mp h2, ?_, by omega⟩
              intro t ht
              rw [ht] at h3
              have := of_decide_eq_false (eq_false_of_ne_true h3)
              omega
            · rintro ⟨hc, -⟩
              rw [Option.some.injEq] at hc
              subst hc
              rfl

/-- Witness for C6 (amended): an owned, active, unexpired, unused coupon
validates. -/
theorem c6_validate_iff_witness :
    validate_coupon (CouponDB.mk [CouponCode.mk 1 "X" 7 10 5 0 true none] []) "X" 7 50 =
      some (CouponCode.mk 1 "X" 7 10 5 0 true none) :=
  (c6_validate_iff (CouponDB.mk [CouponCode.mk 1 "X" 7 10 5 0 true none] []) "X" 7 50
    (CouponCode.mk 1 "X" 7 10 5 0 true none)).mpr
    ⟨by decide, by decide, by decide, fun t ht => absurd ht (by simp), by decide⟩

/-- C7 counterexample: on a coupon with `max_uses = 0` (and `used_count =
0`), `use_coupon` sets `is_active` to false although the incremented
`used_count` (1) does not equal `max_uses` (0): the code deactivates on
`used_count >= max_uses`, not on equality. -/
theorem c7_counterexample :
    use_coupon (CouponDB.mk [CouponCode.mk 1 "C" 7 10 0 0 true none] []) 1 5 2 =
      (CouponDB.mk [CouponCode.mk 1 "C" 7 10 0 1 false none] [CouponUsage.mk 1 5 2],
        CouponUsage.mk 1 5 2) ∧
    (1 : Int) ≠ 0 := by
  exact ⟨by decide, by decide⟩

theorem redeemUpdate_eq (c : CouponCode) :
    redeemUpdate c = { c with used_count := c.used_count + 1, is_active := (if c.used_count + 1 ≥ c.max_uses then false else c.is_active) } := by
  unfold redeemUpdate
  by_cases h : c.used_count + 1 ≥ c.max_uses
  · simp [h]
  · simp [h]

theorem redeemFirst_append (pre : List CouponCode) (c : CouponCode) (post : List CouponCode)
    (cid : Int) (hpre : ∀ x ∈ pre, x.id ≠ cid) (hc : c.id = cid) :
    redeemFirst (pre ++ c :: post) cid = pre ++ redeemUpdate c :: post := by
  induction pre with
  | nil => simp [redeemFirst, hc]
  | cons x xs ih =>
    have hx : x.id ≠ cid := hpre x (List.mem_cons_self x xs)
    simp only [List.cons_append, redeemFirst, if_neg hx, List.append_eq]
    rw [ih (fun y hy => hpre y (List.mem_cons_of_mem x hy))]

/-- C7 (amended): `use_coupon` on an existing coupon appends exactly one
`CouponUsage` row linking the coupon to the order with the given
discount amount, increments the coupon's `used_count` by exactly 1, and
sets `is_active` to false exactly when the incremented `used_count` is
at least `max_uses` (leaving it unchanged otherwise); no other coupon
field and no other coupon row changes. -/
theorem c7_use_coupon (pre : List CouponCode) (c : CouponCode) (post : List CouponCode)
    (usages : List CouponUsage) (cid oid : Int) (amt : Rat)
    (hpre : ∀ x ∈ pre, x.id ≠ cid) (hc : c.id = cid) :
    use_coupon (CouponDB.mk (pre ++ c :: post) usages) cid oid amt =
      (CouponDB.mk
        (pre ++ { c with used_count := c.used_count + 1, is_active := (if c.used_count + 1 ≥ c.max_uses then false else c.is_active) } :: post)
        (usages ++ [CouponUsage.mk cid oid amt]),
       CouponUsage.mk cid oid amt) := by
  simp only [use_coupon]
  rw [redeemFirst_append pre c post cid hpre hc, redeemUpdate_eq]

/-- Witness for C7 (amended) on a coupon with 0 of 3 uses: one usage row
appended, `used_count` becomes 1, `is_active` stays true. -/
theorem c7_use_coupon_witness :
    use_coupon (CouponDB.mk [CouponCode.mk 1 "C" 7 10 3 0 true none] []) 1 5 2 =
      (CouponDB.mk [CouponCode.mk 1 "C" 7 10 3 1 true none] [CouponUsage.mk 1 5 2],
        CouponUsage.mk 1 5 2) :=
  (c7_use_coupon [] (CouponCode.mk 1 "C" 7 10 3 0 true none) [] [] 1 5 2
    (by simp) rfl).trans (by norm_num)

theorem couponInv_redeemFirst (l : List CouponCode) (cid : Int)
    (hinv : ∀ c ∈ l, couponInv c)
    (hguard : ∀ c, l.find? (fun x => x.id = cid) = some c → c.used_count < c.max_uses) :
    ∀ c ∈ redeemFirst l cid, couponInv c := by
  induction l with
  | nil =>
    intro c hc
    simp [redeemFirst] at hc
  | cons x xs ih =>
    intro c hc
    by_cases hx : x.id = cid
    · simp only [redeemFirst, if_pos hx] at hc
      rcases List.mem_cons.mp hc with rfl | hcs
      · have hxinv := hinv x (List.mem_cons_self x xs)
        have hguardx : x.used_count < x.max_uses := by
          refine hguard x ?_
          simp [List.find?, hx]
        rw [redeemUpdate_eq]
        obtain ⟨hx0, hx1, _⟩ := hxinv
        refine ⟨?_, ?_, ?_⟩
        · show (0 : Int) ≤ x.used_count + 1
          omega
        · show x.used_count + 1 ≤ x.max_uses
          omega
        · intro heq
          have heq' : x.used_count + 1 = x.max_uses := heq
          show (if x.used_count + 1 ≥ x.max_uses then false else x.is_active) = false
          rw [if_pos (by omega)]
      · exact hinv c (List.mem_cons_of_mem x hcs)
    · simp only [redeemFirst, if_neg hx] at hc
      rcases List.mem_cons.mp hc with rfl | hcs
      · exact hinv c (List.mem_cons_self c xs)
      · refine ih (fun y hy => hinv y (List.mem_cons_of_mem x hy)) ?_ c hcs
        intro y hy
        refine hguard y ?_
        simpa [List.find?, hx] using hy

theorem couponInv_deactivateFirst (l : List CouponCode) (cid : Int)
    (hinv : ∀ c ∈ l, couponInv c) :
    ∀ c ∈ deactivateFirst l cid, couponInv c := by
  induction l with
  | nil =>
    intro c hc
    simp [deactivateFirst] at hc
  | cons x xs ih =>
    intro c hc
    by_cases hx : x.id = cid
    · simp only [deactivateFirst, if_pos hx] at hc
      rcases List.mem_cons.mp hc with rfl | hcs
      · obtain ⟨hx0, hx1, _⟩ := hinv x (List.mem_cons_self x xs)
        exact ⟨hx0, hx1, fun _ => rfl⟩
      · exact hinv c (List.mem_cons_of_mem x hcs)
    · simp only [deactivateFirst, if_neg hx] at hc
      rcases List.mem_cons.mp hc with rfl | hcs
      · exact hinv c (List.mem_cons_self c xs)
      · exact ih (fun y hy => hinv y (List.mem_cons_of_mem x hy)) c hcs

/-- C8 counterexample: two states reachable by the coupon operations as
implemented violate the claimed invariant. Redeeming a `max_uses = 1`
coupon twice (nothing in `use_coupon` prevents it) leaves
`used_count = 2 > 1 = max_uses`; and a coupon issued with `max_uses = 0`
starts with `used_count = max_uses` while still `is_active`. -/
theorem c8_counterexample :
    (CouponReach ((use_coupon ((use_coupon (create_coupon_code (CouponDB.mk [] []) 1
          "LOYALTYA" 7 10 1 none) 1 100 5).1) 1 101 5).1) ∧
      ((use_coupon ((use_coupon (create_coupon_code (CouponDB.mk [] []) 1
          "LOYALTYA" 7 10 1 none) 1 100 5).1) 1 101 5).1).coupons =
        [CouponCode.mk 1 "LOYALTYA" 7 10 1 2 false none] ∧
      ¬ couponInv (CouponCode.mk 1 "LOYALTYA" 7 10 1 2 false none)) ∧
    (CouponReach (create_coupon_code (CouponDB.mk [] []) 2 "LOYALTYB" 7 10 0 none) ∧
      (create_coupon_code (CouponDB.mk [] []) 2 "LOYALTYB" 7 10 0 none).coupons =
        [CouponCode.mk 2 "LOYALTYB" 7 10 0 0 true none] ∧
      ¬ couponInv (CouponCode.mk 2 "LOYALTYB" 7 10 0 0 true none)) := by
  refine ⟨⟨?_, by decide, by decide⟩, ?_, by decide, by decide⟩
  · exact CouponReach.redeem _ 1 101 5 (CouponReach.redeem _ 1 100 5
      (CouponReach.issue _ 1 "LOYALTYA" 7 10 1 none CouponReach.init))
  · exact CouponReach.issue _ 2 "LOYALTYB" 7 10 0 none CouponReach.init

/-- C8 (amended): in every coupon-ledger state reachable when each coupon
is issued with `max_uses ≥ 1` and each redemption targets a coupon that
still satisfies `used_count < max_uses` (the condition `validate_coupon`
enforces), every coupon satisfies `0 ≤ used_count ≤ max_uses` and a
coupon whose `used_count` has reached `max_uses` has `is_active = false`;
moreover `validate_coupon` returns not-valid for any coupon whose
`used_count` has reached `max_uses`. Without those two provisos the
invariant fails (see the counterexample): `use_coupon` is unguarded, and
a `max_uses = 0` coupon is born at its cap while active. -/
theorem c8_coupon_invariant (db : CouponDB) (h : CouponReachG db) :
    (∀ c ∈ db.coupons, couponInv c) ∧
    (∀ (code : String) (uid now : Int) (c : CouponCode),
      get_coupon_by_code db code = some c → c.max_uses ≤ c.used_count →
      validate_coupon db code uid now = none) := by
  have hmain : ∀ c ∈ db.coupons, couponInv c := by
    induction h with
    | init =>
      intro c hc
      exact absurd hc (List.not_mem_nil c)
    | issue db0 id code uid dp mu exp hmu hreach ih =>
      intro c hc
      simp only [create_coupon_code] at hc
      rcases List.mem_append.mp hc with hcs | hcnew
      · exact ih c hcs
      · rw [List.mem_singleton] at hcnew
        subst hcnew
        refine ⟨le_refl 0, ?_, ?_⟩
        · show (0 : Int) ≤ mu
          omega
        · intro heq
          have heq' : (0 : Int) = mu := heq
          exact absurd hmu (by omega)
    | redeem db0 cid oid amt hreach hguard ih =>
      exact couponInv_redeemFirst db0.coupons cid ih hguard
    | deact db0 cid hreach ih =>
      exact couponInv_deactivateFirst db0.coupons cid ih
  refine ⟨hmain, ?_⟩
  intro code uid now c hget hused
  unfold validate_coupon
  rw [hget]
  show (if c.user_id ≠ uid then none
    else if ¬ c.is_active then none
    else if (match c.expires_at with | some t => decide (t < now) | none => false) then none
    else if c.used_count ≥ c.max_uses then none
    else some c) = none
  by_cases h1 : c.user_id ≠ uid
  · rw [if_pos h1]
  · rw [if_neg h1]
    by_cases h2 : ¬ c.is_active
    · rw [if_pos h2]
    · rw [if_neg h2]
      by_cases h3 : (match c.expires_at with | some t => decide (t < now) | none => false) = true
      · rw [if_pos h3]
      · rw [if_neg h3]
        rw [if_pos (show c.used_count ≥ c.max_uses from hused)]

/-- Witness for C8 (amended): a `max_uses = 1` coupon redeemed once under
the guard no longer validates. -/
theorem c8_coupon_invariant_witness :
    validate_coupon (use_coupon (create_coupon_code (CouponDB.mk [] []) 1
        "LOYALTYA" 7 10 1 none) 1 100 5).1 "LOYALTYA" 7 0 = none :=
  (c8_coupon_invariant _
    (CouponReachG.redeem _ 1 100 5
      (CouponReachG.issue _ 1 "LOYALTYA" 7 10 1 none (by decide) CouponReachG.init)
      (by
        intro c hc
        have hcc : CouponCode.mk 1 "LOYALTYA" 7 10 1 0 true none = c := by
          simpa [create_coupon_code, List.find?] using hc
        subst hcc
        decide))).2 "LOYALTYA" 7 0 (CouponCode.mk 1 "LOYALTYA" 7 10 1 1 false none)
    (by decide) (by decide)

/-- C9: guest-order parsing pairs the two comma-separated strings by
position (ignoring whitespace around tokens), raises the uniform
InvalidFormat error whenever the two lists differ in length or any token
fails integer parsing — leaving the state unchanged — and every persisted
guest order carries no user reference. -/
theorem c9_guest_parsing :
    parseGuestItems "1,2" "3,4" = .ok [OrderItemBase.mk 1 3, OrderItemBase.mk 2 4] ∧
    parseGuestItems " 1 , 2 " "3, 4" = .ok [OrderItemBase.mk 1 3, OrderItemBase.mk 2 4] ∧
    (∀ (pids qtys : String) (l1 l2 : List Int),
      parseIntList pids = some l1 → parseIntList qtys = some l2 → l1.length = l2.length →
      parseGuestItems pids qtys = .ok (List.zipWith (fun p q => OrderItemBase.mk p q) l1 l2)) ∧
    (∀ (db : DB) (g : GuestOrderCreate),
      (parseIntList g.product_ids = none ∨ parseIntList g.quantities = none ∨
        (∃ l1 l2, parseIntList g.product_ids = some l1 ∧ parseIntList g.quantities = some l2 ∧
          l1.length ≠ l2.length)) →
      create_guest_order db g = (db, .error .invalidFormat)) ∧
    (∀ (db : DB) (g : GuestOrderCreate) (db' : DB) (o : Order),
      create_guest_order db g = (db', .ok o) → o.user_id = none) := by
  refine ⟨by decide, by decide, ?_, ?_, ?_⟩
  · intro pids qtys l1 l2 h1 h2 hlen
    simp [parseGuestItems, h1, h2, hlen]
  · intro db g h
    have hp : parseGuestItems g.product_ids g.quantities = .error .invalidFormat := by
      rcases h with h | h | ⟨l1, l2, h1, h2, hlen⟩
      · simp [parseGuestItems, h]
      · cases hp1 : parseIntList g.product_ids with
        | none => simp [parseGuestItems, hp1]
        | some l1 => simp [parseGuestItems, hp1, h]
      · simp [parseGuestItems, h1, h2, hlen]
    simp [create_guest_order, hp]
  · intro db g db' o h
    obtain ⟨_, _, _, _, _, ho, _⟩ := create_guest_order_ok_shape db g db' o h
    rw [ho]

/-- Witness for C9: mismatched list lengths raise InvalidFormat and leave
the state unchanged. -/
theorem c9_guest_parsing_witness :
    create_guest_order (DB.mk [] [] [] 1)
        (GuestOrderCreate.mk "1,2" "3" "a" "n" "e" none "paypal" none) =
      (DB.mk [] [] [] 1, .error .invalidFormat) :=
  c9_guest_parsing.2.2.2.1 (DB.mk [] [] [] 1)
    (GuestOrderCreate.mk "1,2" "3" "a" "n" "e" none "paypal" none)
    (Or.inr (Or.inr ⟨[1, 2], [3], by decide, by decide, by decide⟩))

end Zyn
